import Mathlib

set_option maxRecDepth 8192

/-!
Verification of the retrieval-and-answer pipeline of the
Adhayayan AI research-paper analyzer.

The Python sources (`retrieval.py`, `llm_agent.py`, `paper_search.py`,
`app.py`) are shallowly embedded below.  Python strings are modelled as
`String`/`List Char` (ASCII behaviour of `str.lower`, `str.split`,
`str.strip` and the whitespace class; every concrete input used in the
theorems is ASCII).  The two model-invocation points (`llm.invoke`) are
modelled as an explicit oracle `invoke : String → Except String String`:
`Except.ok` is a successful generation, `Except.error` a raised exception
caught by the surrounding `try`/`except`.
-/

/-- Python-style whitespace test: the ASCII characters matched by
`str.split()`, `str.strip()` and the regex class `\s`. -/
def pyIsSpace (c : Char) : Bool :=
  c = ' ' || c = '\t' || c = '\n' || c = '\r' || c = '\x0b' || c = '\x0c'

/-- Boolean test that `pat` starts `l` (used to model substring search). -/
def listStarts : List Char → List Char → Bool
  | [], _ => true
  | _ :: _, [] => false
  | p :: ps, c :: cs => p = c && listStarts ps cs

/-- Python `pat in s` substring test on character lists. -/
def listHasSub (pat : List Char) : List Char → Bool
  | [] => listStarts pat []
  | l@(_ :: cs) => listStarts pat l || listHasSub pat cs

/-- Index of the first occurrence of `pat` in `l` (Python `str.find`,
with `none` standing for the `-1` "not found" result). -/
def pyFindAux (pat : List Char) : List Char → Option Nat
  | [] => if pat = [] then some 0 else none
  | l@(_ :: cs) =>
    if listStarts pat l then some 0
    else (pyFindAux pat cs).map (· + 1)

/-- Python `str.find` with its `-1` convention. -/
def pyFindInt (pat l : List Char) : Int :=
  match pyFindAux pat l with
  | some i => (i : Int)
  | none => -1

/-- Python `s.split(sep)` for a non-empty separator, via a fuel counter
(the fuel `l.length + 1` always suffices because every step consumes at
least one character). -/
def pySplitAux (sep : List Char) : Nat → List Char → List (List Char)
  | 0, l => [l]
  | fuel + 1, l =>
    match pyFindAux sep l with
    | none => [l]
    | some i => l.take i :: pySplitAux sep fuel (l.drop (i + sep.length))

/-- Python `s.split(sep)` (keeps empty segments, as Python does). -/
def pySplit (sep : List Char) (l : List Char) : List (List Char) :=
  pySplitAux sep (l.length + 1) l

/-- Python `s.strip()`: remove leading and trailing whitespace. -/
def pyStrip (l : List Char) : List Char :=
  ((l.dropWhile pyIsSpace).reverse.dropWhile pyIsSpace).reverse

/-- ASCII lower-casing of one character (Python `str.lower` on ASCII). -/
def asciiLowerChar (c : Char) : Char :=
  if 65 ≤ c.toNat ∧ c.toNat ≤ 90 then Char.ofNat (c.toNat + 32) else c

/-- Python `s.lower()` on a character list. -/
def pyLower (l : List Char) : List Char := l.map asciiLowerChar

/-- Helper for Python's no-argument `str.split()`: accumulate the current
word (reversed) while scanning; whitespace runs separate words and empty
words are dropped. -/
def pySplitWsAux (cur : List Char) : List Char → List (List Char)
  | [] => if cur = [] then [] else [cur.reverse]
  | c :: cs =>
    if pyIsSpace c then
      if cur = [] then pySplitWsAux [] cs
      else cur.reverse :: pySplitWsAux [] cs
    else pySplitWsAux (c :: cur) cs

/-- Python `s.split()` (split on whitespace runs, no empty words). -/
def pySplitWs (l : List Char) : List (List Char) := pySplitWsAux [] l

/-- A retrieval chunk: the dict `{"text": ..., "page": ..., "source": ...}`
built by `extract_chunks_from_text` in `retrieval.py`. -/
structure Chunk where
  text : String
  page : String
  source : String
deriving DecidableEq, Repr

/-- A stored PDF record as the pipeline reads it: `filename`, `pdf_text`
and `summary` are the fields accessed by `retrieval.py` and
`paper_search.py`. -/
structure Pdf where
  filename : String
  pdf_text : String
  summary : String
deriving DecidableEq, Repr

/-- The page marker `"--- Page "` that `extract_chunks_from_text` splits on. -/
def pageMarker : List Char := "--- Page ".toList

/-- The closing token `" ---"` searched for inside each segment. -/
def markerClose : List Char := " ---".toList

/-- Body of the per-segment loop of `extract_chunks_from_text`
(`retrieval.py` lines 13-35).  A segment that strips to empty is skipped.
Otherwise `page_num_end = page_text.find(" ---")`; when it is positive the
page label is the stripped prefix and the text the stripped remainder
after the 4-character token, else the label is `"1"` and the text the
stripped segment.  The Python `except` branch (label `"?"`) is
unreachable: `str.find`, slicing and `str.strip` raise no exception, so
the model has no `"?"` path.  A chunk whose text strips to empty is
dropped (`if text:`). -/
def procSeg (filename : String) (seg : List Char) : Option Chunk :=
  if pyStrip seg = [] then none
  else
    let pne : Int := pyFindInt markerClose seg
    if pne > 0 then
      let page := pyStrip (seg.take pne.toNat)
      let text := pyStrip (seg.drop (pne.toNat + 4))
      if text = [] then none
      else some ⟨text.asString, page.asString, filename⟩
    else
      let text := pyStrip seg
      if text = [] then none
      else some ⟨text.asString, "1", filename⟩

/-- The Chunker: `extract_chunks_from_text` of `retrieval.py`. -/
def extract_chunks_from_text (pdf_text : String) (filename : String) : List Chunk :=
  (pySplit pageMarker pdf_text.toList).filterMap (procSeg filename)

/-- Python `set(s.split())` for a lower-cased string, as a duplicate-free
word list. -/
def wordsOf (l : List Char) : List (List Char) := (pySplitWs l).dedup

/-- The keyword-overlap part of the score in `simple_keyword_search`:
`len(set(query.lower().split()) & set(text.lower().split()))`.  The
deduplicated word list represents the Python set; its length after
filtering by membership in the chunk's word set is exactly the size of
the set intersection. -/
def overlapCount (query : String) (c : Chunk) : Nat :=
  ((wordsOf (pyLower query.toList)).filter
    (fun w => (wordsOf (pyLower c.text.toList)).contains w)).length

/-- The exact-phrase test of `simple_keyword_search`:
`query_lower in text_lower`. -/
def hasPhrase (query : String) (c : Chunk) : Bool :=
  listHasSub (pyLower query.toList) (pyLower c.text.toList)

/-- The per-chunk score of `simple_keyword_search` (`retrieval.py`
lines 48-57): keyword overlap plus a bonus of 10 for an exact phrase
match. -/
def chunkScore (query : String) (c : Chunk) : Nat :=
  let overlap := overlapCount query c
  if hasPhrase query c then overlap + 10 else overlap

/-- The scored-chunk list built by the loop of `simple_keyword_search`
(`retrieval.py` lines 47-60): pairs `(overlap, chunk)` in input order,
keeping only strictly positive scores. -/
def scoredList (query : String) (chunks : List Chunk) : List (Nat × Chunk) :=
  chunks.filterMap (fun c =>
    let s := chunkScore query c
    if 0 < s then some (s, c) else none)

/-- Insert a scored chunk into an already-sorted list, descending by
score; a later-arriving element goes after every earlier element whose
score is at least as large (stability). -/
def insertDesc (x : Nat × Chunk) : List (Nat × Chunk) → List (Nat × Chunk)
  | [] => [x]
  | y :: ys => if y.1 ≤ x.1 then x :: y :: ys else y :: insertDesc x ys

/-- Stable descending sort by score, modelling
`scored_chunks.sort(reverse=True, key=lambda x: x[0])`.  Python's sort is
stable, and a stable descending-by-key sort is uniquely determined by its
input (it is sorted, a permutation, and preserves the relative order of
equal keys - see `sortDesc_sortedDesc` and `filter_sortDesc` below), so
this insertion sort computes exactly what the Python call computes. -/
def sortDesc : List (Nat × Chunk) → List (Nat × Chunk)
  | [] => []
  | x :: xs => insertDesc x (sortDesc xs)

/-- The ranked retrieval of `simple_keyword_search` (`retrieval.py`
lines 39-64): score, keep positive, stable-sort descending, take the
first `top_k`, drop the scores. -/
def simple_keyword_search (query : String) (chunks : List Chunk) (top_k : Nat) : List Chunk :=
  ((sortDesc (scoredList query chunks)).take top_k).map Prod.snd

/-- The synthetic placeholder chunk returned on an empty pool
(`retrieval.py` lines 87-91). -/
def placeholderChunk : Chunk :=
  ⟨"No document content available.", "0", "System"⟩

/-- The chunk pool derived from every PDF record with a truthy
(non-empty) `pdf_text` (`retrieval.py` lines 78-84). -/
def derivedPool (pdfs : List Pdf) : List Chunk :=
  pdfs.foldl (fun acc pdf =>
    if pdf.pdf_text ≠ "" then
      acc ++ extract_chunks_from_text pdf.pdf_text pdf.filename
    else acc) []

/-- The Context Assembler: `retrieve_from_pdf_texts` of `retrieval.py`.
Empty pool yields the placeholder; an empty ranked result falls back to
the first `top_k` pool chunks. -/
def retrieve_from_pdf_texts (query : String) (pdfs : List Pdf) (top_k : Nat) : List Chunk :=
  let all_chunks := derivedPool pdfs
  if all_chunks = [] then [placeholderChunk]
  else
    let relevant_chunks := simple_keyword_search query all_chunks top_k
    if relevant_chunks = [] then all_chunks.take top_k
    else relevant_chunks

/-- Per-chunk truncation in `answer_with_context` (`llm_agent.py`
lines 37-39): texts longer than 1500 characters are cut and get an
ellipsis marker. -/
def truncText (t : List Char) : List Char :=
  if t.length > 1500 then t.take 1500 ++ "...".toList else t

/-- One context block of `answer_with_context` (`llm_agent.py` line 41):
`[Source i: source, Page page]\n` followed by the (truncated) text and a
newline. -/
def blockFor (i : Nat) (c : Chunk) : List Char :=
  "[Source ".toList ++ (toString i).toList ++ ": ".toList ++ c.source.toList
    ++ ", Page ".toList ++ c.page.toList ++ "]\n".toList
    ++ truncText c.text.toList ++ "\n".toList

/-- The context-accumulation loop of `answer_with_context` (`llm_agent.py`
lines 27-48): blocks are numbered from `i`, a block whose addition would
push the running total `total` past 12000 characters stops the loop. -/
def buildPartsAux : List Chunk → Nat → Nat → List (List Char)
  | [], _, _ => []
  | c :: cs, i, total =>
    let ct := blockFor i c
    if total + ct.length > 12000 then []
    else ct :: buildPartsAux cs (i + 1) (total + ct.length)

/-- The context blocks actually included in the prompt: at most the first
6 chunks (`chunks[:6]`), numbered from 1, within the 12000-character
budget. -/
def contextParts (chunks : List Chunk) : List (List Char) :=
  buildPartsAux (chunks.take 6) 1 0

/-- Python `"\n".join(...)` on character lists. -/
def joinNl : List (List Char) → List Char
  | [] => []
  | [x] => x
  | x :: y :: ys => x ++ '\n' :: joinNl (y :: ys)

/-- The assembled `context_text` of `answer_with_context`. -/
def contextText (chunks : List Chunk) : List Char :=
  joinNl (contextParts chunks)

/-- The fixed prompt text before the injected context. -/
def promptPre : List Char :=
  ("You are an expert research assistant analyzing academic papers. Answer the user's question based ONLY on the provided context.\n\nCONTEXT FROM UPLOADED DOCUMENTS:\n").toList

/-- The fixed prompt text between the context and the question. -/
def promptMid : List Char := "\n\nUSER QUESTION: ".toList

/-- The fixed prompt text after the question: the five numbered
instructions and the answer cue. -/
def promptPost : List Char :=
  ("\n\nINSTRUCTIONS:\n1. Provide a clear, comprehensive answer based on the context\n2. Use inline citations like [Source 1], [Source 2] when referencing specific information\n3. If the answer requires information from multiple sources, cite all relevant sources\n4. If the context doesn't contain enough information, say so clearly\n5. Be precise and academic in your tone\n\nANSWER:").toList

/-- Total length of the fixed instruction template (everything in the
prompt that is neither injected context nor the verbatim question). -/
def instructionTemplateLength : Nat :=
  promptPre.length + promptMid.length + promptPost.length

/-- The full prompt string built by `answer_with_context` (`llm_agent.py`
lines 52-66). -/
def buildPrompt (question : String) (chunks : List Chunk) : List Char :=
  promptPre ++ contextText chunks ++ promptMid ++ question.toList ++ promptPost

/-- The literal fallback answer returned when `llm.invoke` raises inside
`answer_with_context` (`llm_agent.py` line 73). -/
def fallbackAnswer : String :=
  "I apologize, but I encountered an error while processing your question. This might be due to the document size. Try asking a more specific question or upload fewer documents."

/-- The Answer Generator wrapper: `answer_with_context` of `llm_agent.py`,
with the model call abstracted as `invoke`.  A raised exception
(`Except.error`) is caught and replaced by the fixed fallback answer. -/
def answer_with_context (invoke : String → Except String String)
    (question : String) (chunks : List Chunk) : String :=
  let prompt := (buildPrompt question chunks).asString
  match invoke prompt with
  | Except.ok content => content
  | Except.error _ => fallbackAnswer

/-- The `summarize_document` input-reduction rule (`llm_agent.py`
lines 82-91): texts over 20000 characters are replaced by their first and
last 10000 characters around an elision marker. -/
def summarizeInput (full_text : List Char) : List Char :=
  if full_text.length > 20000 then
    full_text.take 10000 ++ "\n\n[...]\n\n".toList
      ++ full_text.drop (full_text.length - 10000)
  else full_text

/-- Uppercase-ASCII test: the regex class `[A-Z]` of the entry pattern in
`extract_references_from_text`. -/
def isUpperA (c : Char) : Bool := decide (65 ≤ c.toNat ∧ c.toNat ≤ 90)

/-- Match of the entry regex `([A-Z][^.]+\.\s*\(\d{4}\)[^.]+\.)` of
`paper_search.py` line 23 at the head of `l`.  The pattern is
deterministic: each `[^.]+` is the (non-empty) run up to the next period
and `\s*` the whitespace run before the parenthesis.  Returns the matched
span and the rest of the input. -/
def matchEntryAt : List Char → Option (List Char × List Char)
  | [] => none
  | c :: cs =>
    if isUpperA c then
      let p1 := cs.takeWhile (· ≠ '.')
      let r1 := cs.dropWhile (· ≠ '.')
      if p1 = [] then none
      else
        match r1 with
        | '.' :: r2 =>
          let ws := r2.takeWhile pyIsSpace
          let r3 := r2.dropWhile pyIsSpace
          match r3 with
          | '(' :: d1 :: d2 :: d3 :: d4 :: ')' :: r5 =>
            if d1.isDigit && d2.isDigit && d3.isDigit && d4.isDigit then
              let p2 := r5.takeWhile (· ≠ '.')
              let r6 := r5.dropWhile (· ≠ '.')
              if p2 = [] then none
              else
                match r6 with
                | '.' :: r7 =>
                  some (c :: p1 ++ '.' :: ws ++ '(' :: d1 :: d2 :: d3 :: d4 :: ')' :: p2 ++ ['.'], r7)
                | _ => none
            else none
          | _ => none
        | _ => none
    else none

/-- The scan of `re.findall` for the entry pattern: try a match at every
position left to right, resuming after each match (fuel `l.length`
suffices since every step consumes at least one character). -/
def findEntriesAux : Nat → List Char → List (List Char)
  | 0, _ => []
  | _ + 1, [] => []
  | fuel + 1, l@(_ :: cs) =>
    match matchEntryAt l with
    | some (m, rest) => m :: findEntriesAux fuel rest
    | none => findEntriesAux fuel cs

/-- All matches of the entry regex in `l`, in order
(`re.findall(r'([A-Z][^.]+\.\s*\(\d{4}\)[^.]+\.)', ...)`). -/
def findEntries (l : List Char) : List (List Char) :=
  findEntriesAux l.length l

/-- Largest split of a leading `\s*` run ending in `\n` (the `\s*\n` part
of the section patterns, greedy with backtracking): the index of the last
newline inside the leading whitespace run, if any. -/
def lastNlInWsRun : List Char → Option Nat
  | [] => none
  | c :: cs =>
    if pyIsSpace c then
      match lastNlInWsRun cs with
      | some j => some (j + 1)
      | none => if c = '\n' then some 0 else none
    else none

/-- The lazy capture `(.*?)(?:STOP|\Z)` (DOTALL): everything before the
first occurrence of `stop`, or the whole input when `stop` never occurs. -/
def captureUpto (stop : List Char) : List Char → List Char
  | [] => []
  | l@(c :: cs) =>
    if listStarts stop l then []
    else c :: captureUpto stop cs

/-- Header alternation of the first section pattern:
`(?:references|bibliography|works cited)`; returns the input after the
header.  The three alternatives start with distinct characters, so at
most one can match at a given position and no backtracking is needed. -/
def headerRest1 (l : List Char) : Option (List Char) :=
  if listStarts "references".toList l then some (l.drop 10)
  else if listStarts "bibliography".toList l then some (l.drop 12)
  else if listStarts "works cited".toList l then some (l.drop 11)
  else none

/-- Header alternation of the second section pattern:
`(?:references|bibliography)`. -/
def headerRest2 (l : List Char) : Option (List Char) :=
  if listStarts "references".toList l then some (l.drop 10)
  else if listStarts "bibliography".toList l then some (l.drop 12)
  else none

/-- Try the whole section pattern (header, `\s*\n`, lazy capture up to
`stop` or end) anchored at the current position. -/
def trySecAt (hdr : List Char → Option (List Char)) (stop : List Char)
    (l : List Char) : Option (List Char) :=
  match hdr l with
  | some rest =>
    match lastNlInWsRun rest with
    | some j => some (captureUpto stop (rest.drop (j + 1)))
    | none => none
  | none => none

/-- Leftmost match of a section pattern, scanning positions left to right
(the semantics of `re.search`). -/
def searchSec (hdr : List Char → Option (List Char)) (stop : List Char) :
    List Char → Option (List Char)
  | [] => trySecAt hdr stop []
  | l@(_ :: cs) =>
    match trySecAt hdr stop l with
    | some cap => some cap
    | none => searchSec hdr stop cs

/-- The Citation Post-Processor's bibliography extraction:
`extract_references_from_text` of `paper_search.py`.  The whole text is
lower-cased, the two section patterns are tried in order (the first whose
`re.search` succeeds wins), the entry regex is applied to the captured
span and at most 10 entries are kept.  The `except` branch is
unreachable: `re.search` and `re.findall` raise nothing here. -/
def extract_references_from_text (pdf_text : String) : List String :=
  let lowered := pyLower pdf_text.toList
  match searchSec headerRest1 "\n\n\n".toList lowered with
  | some cap => ((findEntries cap).take 10).map List.asString
  | none =>
    match searchSec headerRest2 "appendix".toList lowered with
    | some cap => ((findEntries cap).take 10).map List.asString
    | none => []

/-- The fixed text before the combined summaries in the related-papers
prompt (`paper_search.py` lines 41-45). -/
def relatedPromptPre : String :=
  "You are an academic research assistant. Based on the following research papers, suggest 5 highly relevant academic papers.\n\nUPLOADED PAPERS SUMMARY:\n"

/-- The fixed text after the combined summaries in the related-papers
prompt (`paper_search.py` lines 46-61). -/
def relatedPromptPost : String :=
  "\n\nGenerate 5 related papers in this EXACT format (use bullet points with •):\n\n• **[Paper Title 1]** by Author1, Author2 et al. (2023)\n  Research area and brief relevance explanation in one line.\n\n• **[Paper Title 2]** by Author1, Author2 (2022)\n  Research area and brief relevance explanation in one line.\n\nREQUIREMENTS:\n- Use bullet point (•) for each paper\n- Make titles realistic and academic\n- Years between 2019-2025\n- Keep each description to ONE line only\n- No extra formatting or sections\n\nGenerate exactly 5 papers with bullet points:"

/-- The related-papers generation: `generate_related_papers_with_llm` of
`paper_search.py`.  A raised model exception is caught and replaced by an
explanatory string carrying the exception text; `user_response` is
accepted but never read, as in the source. -/
def generate_related_papers_with_llm (invoke : String → Except String String)
    (pdf_summaries : List Pdf) (user_response : String) : String :=
  let combined_summary :=
    (joinNl ((pdf_summaries.take 3).map (fun p => ("- " ++ p.summary).toList))).asString
  let prompt := relatedPromptPre ++ combined_summary ++ relatedPromptPost
  match invoke prompt with
  | Except.ok content => content
  | Except.error e => "Could not generate related papers: " ++ e

/-- The heading emitted before extracted references
(`paper_search.py` line 85). -/
def refsHeading : String :=
  "<p style='color: #a78bfa; font-weight: 600; margin: 0 0 10px 0;'>📚 References from Paper:</p>"

/-- The heading emitted before the related-papers block
(`paper_search.py` line 92). -/
def relatedHeading : String :=
  "<p style='color: #a78bfa; font-weight: 600; margin: 15px 0 10px 0;'>🔬 Related Research Papers:</p>"

/-- The Citation Post-Processor's assembly: `search_papers_from_pdf` of
`paper_search.py`.  References are gathered from the first 2 PDFs with a
truthy `pdf_text`; the bibliography block appears only when at least one
reference was found (at most 5 shown); the related-papers block is always
appended. -/
def search_papers_from_pdf (invoke : String → Except String String)
    (pdfs : List Pdf) (response_text : String) : String :=
  let all_references :=
    (pdfs.take 2).foldl (fun acc pdf =>
      if pdf.pdf_text ≠ "" then acc ++ extract_references_from_text pdf.pdf_text
      else acc) []
  let refsHtml :=
    if all_references ≠ [] then
      refsHeading ++ "<ul style='margin: 0 0 15px 0; padding-left: 20px;'>"
        ++ (all_references.take 5).foldl (fun acc ref =>
            acc ++ "<li style='margin: 5px 0; color: #d1d5db;'>" ++ ref ++ "</li>") ""
        ++ "</ul>"
    else ""
  refsHtml ++ relatedHeading
    ++ "<div style='color: #d1d5db; line-height: 1.8;'>"
    ++ generate_related_papers_with_llm invoke pdfs response_text
    ++ "</div>"

/-- The answer text of the `/chat` route when the user has no PDFs
(`app.py` line 715). -/
def noPdfAnswer : String :=
  "Please upload at least one PDF document before asking questions."

/-- The `/chat`-route pipeline: the `else` arm plus no-PDF arm of
`chat_message` in `app.py` (lines 713-730), returning the pair
`(response_text, citations)`.  Every callee catches model exceptions
internally and the remaining operations are pure, so the route's own
`try`/`except` arm (a generic error text with empty citations) is not
reachable through the modelled pipeline and the model is total: no fault
propagates to the caller. -/
def chat_message (invoke : String → Except String String)
    (pdfs : List Pdf) (message : String) : String × String :=
  if pdfs = [] then (noPdfAnswer, "")
  else
    let chunks := retrieve_from_pdf_texts message pdfs 6
    let response_text := answer_with_context invoke message chunks
    let citations := search_papers_from_pdf invoke pdfs response_text
    (response_text, citations)

/-- Packing a codepoint below the surrogate range and unpacking it is the
identity. -/
lemma char_toNat_ofNat_of_lt (n : Nat) (h : n < 55296) : (Char.ofNat n).toNat = n := by
  have hv : n.isValidChar := Or.inl h
  simp [Char.ofNat, hv, Char.ofNatAux, Char.toNat, UInt32.toNat, BitVec.toNat_ofNatLt]

/-- Lower-casing never produces an ASCII uppercase letter. -/
lemma isUpperA_asciiLowerChar (c : Char) : isUpperA (asciiLowerChar c) = false := by
  unfold asciiLowerChar
  split
  · rename_i h
    have h1 : c.toNat + 32 < 55296 := by omega
    have h2 := char_toNat_ofNat_of_lt (c.toNat + 32) h1
    simp only [isUpperA, h2, decide_eq_false_iff_not]
    omega
  · rename_i h
    simp only [isUpperA, decide_eq_false_iff_not]
    exact h

/-- Every character of a lower-cased string is not ASCII uppercase. -/
lemma isUpperA_of_mem_pyLower (l : List Char) (c : Char) (hc : c ∈ pyLower l) :
    isUpperA c = false := by
  rcases List.mem_map.mp hc with ⟨d, _, rfl⟩
  exact isUpperA_asciiLowerChar d

/-- The entry regex cannot match at a non-uppercase head. -/
lemma matchEntryAt_eq_none (c : Char) (cs : List Char) (h : isUpperA c = false) :
    matchEntryAt (c :: cs) = none := by
  simp [matchEntryAt, h]

/-- On input with no ASCII uppercase character the entry scan finds
nothing. -/
lemma findEntriesAux_eq_nil :
    ∀ (n : Nat) (l : List Char), (∀ c ∈ l, isUpperA c = false) → findEntriesAux n l = []
  | 0, _, _ => rfl
  | _ + 1, [], _ => rfl
  | n + 1, c :: cs, h => by
    have hc := h c (List.mem_cons_self c cs)
    simp only [findEntriesAux, matchEntryAt_eq_none c cs hc]
    exact findEntriesAux_eq_nil n cs (fun d hd => h d (List.mem_cons_of_mem _ hd))

/-- The lazy capture only contains characters of its input. -/
lemma mem_captureUpto (stop : List Char) :
    ∀ (l : List Char) (c : Char), c ∈ captureUpto stop l → c ∈ l
  | [], c, hc => by simp [captureUpto] at hc
  | a :: as, c, hc => by
    unfold captureUpto at hc
    split at hc
    · simp at hc
    · rcases List.mem_cons.mp hc with h | h
      · exact h ▸ List.mem_cons_self a as
      · exact List.mem_cons_of_mem a (mem_captureUpto stop as c h)

/-- The text after the first header alternation is part of the input. -/
lemma headerRest1_subset {l rest : List Char} (h : headerRest1 l = some rest) :
    rest ⊆ l := by
  unfold headerRest1 at h
  split_ifs at h <;>
    first
    | (injection h with h; exact h ▸ (List.drop_suffix _ _).subset)
    | exact Option.noConfusion h

/-- The text after the second header alternation is part of the input. -/
lemma headerRest2_subset {l rest : List Char} (h : headerRest2 l = some rest) :
    rest ⊆ l := by
  unfold headerRest2 at h
  split_ifs at h <;>
    first
    | (injection h with h; exact h ▸ (List.drop_suffix _ _).subset)
    | exact Option.noConfusion h

/-- An anchored section match captures only characters of the input. -/
lemma trySecAt_subset {hdr : List Char → Option (List Char)} {stop : List Char}
    (hh : ∀ {l rest : List Char}, hdr l = some rest → rest ⊆ l)
    {l cap : List Char} (h : trySecAt hdr stop l = some cap) : cap ⊆ l := by
  unfold trySecAt at h
  cases hrest : hdr l with
  | none => rw [hrest] at h; exact Option.noConfusion h
  | some rest =>
    rw [hrest] at h
    dsimp only at h
    cases hj : lastNlInWsRun rest with
    | none => rw [hj] at h; exact Option.noConfusion h
    | some j =>
      rw [hj] at h
      injection h with h
      intro c hc
      exact hh hrest ((List.drop_suffix _ _).subset (mem_captureUpto _ _ _ (h ▸ hc)))

/-- A section-pattern match captures only characters of the input. -/
lemma searchSec_subset {hdr : List Char → Option (List Char)} {stop : List Char}
    (hh : ∀ {l rest : List Char}, hdr l = some rest → rest ⊆ l) :
    ∀ {l cap : List Char}, searchSec hdr stop l = some cap → cap ⊆ l
  | [], cap, h => by
    unfold searchSec at h
    exact trySecAt_subset hh h
  | a :: as, cap, h => by
    unfold searchSec at h
    cases ht : trySecAt hdr stop (a :: as) with
    | some c => rw [ht] at h; injection h with h; exact h ▸ trySecAt_subset hh ht
    | none =>
      rw [ht] at h
      exact fun c hc => List.mem_cons_of_mem a (searchSec_subset hh h hc)

/-- The bibliography extraction returns the empty list on every input:
the whole text is lower-cased before the section search, the captured
span therefore contains no ASCII uppercase character, and every match of
the entry regex must start with one. -/
lemma extract_refs_empty (t : String) : extract_references_from_text t = [] := by
  unfold extract_references_from_text
  dsimp only
  split
  · rename_i cap h1
    have hup : ∀ c ∈ cap, isUpperA c = false := fun c hc =>
      isUpperA_of_mem_pyLower _ c (searchSec_subset (fun h => headerRest1_subset h) h1 hc)
    simp [findEntries, findEntriesAux_eq_nil _ _ hup]
  · split
    · rename_i cap h2
      have hup : ∀ c ∈ cap, isUpperA c = false := fun c hc =>
        isUpperA_of_mem_pyLower _ c (searchSec_subset (fun h => headerRest2_subset h) h2 hc)
      simp [findEntries, findEntriesAux_eq_nil _ _ hup]
    · rfl

/-- The spec's example document for bibliography extraction. -/
def c1DocText : String := "References\n\nSmith, J. (2020). A Study. Journal.\n\nAppendix"

/-- Claim C1 is false on the code: for the example document
`"References\n\nSmith, J. (2020). A Study. Journal.\n\nAppendix"` the
reference extraction does not return exactly one bibliography entry (it
returns zero). -/
theorem c1_example_counterexample :
    (extract_references_from_text c1DocText).length ≠ 1 := by
  rw [extract_refs_empty]
  decide

/-- Claim C1 (amended): the reference-extraction operation returns zero
bibliography entries for every document text, the example document
included: the entry pattern `[A-Z]...` demands an ASCII uppercase first
letter but is applied to the lower-cased text, so it can never match. -/
theorem c1_extraction_returns_nothing (pdf_text : String) :
    extract_references_from_text pdf_text = [] :=
  extract_refs_empty pdf_text

/-- A document text whose second page-marker segment (`"Beta"`) has no
`" ---"` closing token, so its page-number parse fails. -/
def c3DocText : String := "--- Page 1 ---Alpha--- Page Beta"

/-- Claim C3 is false on the code: splitting `c3DocText` on the page
marker yields the later segment `"Beta"`, whose page-number parse fails
(`find(" ---")` is -1), yet its chunk's page label is `"1"`, not the
claimed `"?"`. -/
theorem c3_later_segment_counterexample :
    pySplit pageMarker c3DocText.toList =
      ["".toList, "1 ---Alpha".toList, "Beta".toList] ∧
    pyFindInt markerClose "Beta".toList ≤ 0 ∧
    extract_chunks_from_text c3DocText "d.pdf" =
      [⟨"Alpha", "1", "d.pdf"⟩, ⟨"Beta", "1", "d.pdf"⟩] ∧
    ("1" : String) ≠ "?" := by
  refine ⟨by decide, by decide, by decide, by decide⟩

/-- Claim C3 (amended): in the Chunker, whenever parsing the leading page
number of a segment fails (`find(" ---")` is not positive), the chunk's
page label defaults to `"1"` - for the first and every later segment
alike; the `"?"` default belongs to an exception handler that can never
run. -/
theorem c3_failed_parse_page_is_one (seg : List Char) (filename : String) (c : Chunk)
    (hfind : pyFindInt markerClose seg ≤ 0)
    (hc : procSeg filename seg = some c) : c.page = "1" := by
  unfold procSeg at hc
  split at hc
  · exact Option.noConfusion hc
  · dsimp only at hc
    split at hc
    · rename_i hpos
      omega
    · injection hc with hc
      rw [← hc]

/-- Witness for the amended C3 at the concrete later segment `"Beta"`. -/
theorem c3_failed_parse_page_is_one_witness :
    pyFindInt markerClose "Beta".toList ≤ 0 ∧
    (Chunk.mk "Beta" "1" "d.pdf").page = "1" :=
  ⟨by decide,
   c3_failed_parse_page_is_one "Beta".toList "d.pdf" ⟨"Beta", "1", "d.pdf"⟩
     (by decide) (by decide)⟩

/-- A non-empty document text with zero page markers in which `" ---"`
occurs at a positive index. -/
def c6DocText : String := "foo ---bar"

/-- Claim C6 is false on the code: `"foo ---bar"` is non-empty and
contains zero page-marker tokens, yet the Chunker's single chunk has page
label `"foo"` (not `"1"`) and text `"bar"` (not the trimmed input),
because the `" ---"` token at a positive index is mistaken for a page
header. -/
theorem c6_no_marker_counterexample :
    pyFindAux pageMarker c6DocText.toList = none ∧
    pyStrip c6DocText.toList ≠ [] ∧
    extract_chunks_from_text c6DocText "d.pdf" = [⟨"bar", "foo", "d.pdf"⟩] ∧
    ("foo" : String) ≠ "1" := by
  refine ⟨by decide, by decide, by decide, by decide⟩

/-- Claim C6 (amended): for every document text with zero page-marker
tokens, whose trimmed text is non-empty, and in which `" ---"` does not
occur at a positive index, the Chunker produces exactly one chunk with
page label `"1"` and the trimmed input text. -/
theorem c6_single_chunk (t f : String)
    (hmark : pyFindAux pageMarker t.toList = none)
    (hne : pyStrip t.toList ≠ [])
    (hclose : pyFindInt markerClose t.toList ≤ 0) :
    extract_chunks_from_text t f = [⟨(pyStrip t.toList).asString, "1", f⟩] := by
  have hsplit : pySplit pageMarker t.toList = [t.toList] := by
    unfold pySplit pySplitAux
    rw [hmark]
  have hproc : procSeg f t.toList = some ⟨(pyStrip t.toList).asString, "1", f⟩ := by
    unfold procSeg
    rw [if_neg hne]
    dsimp only
    rw [if_neg (by omega : ¬ pyFindInt markerClose t.toList > 0), if_neg hne]
  rw [extract_chunks_from_text, hsplit, List.filterMap_cons, hproc]
  rfl

/-- Witness for the amended C6 at the concrete text `"hello world"`. -/
theorem c6_single_chunk_witness :
    extract_chunks_from_text "hello world" "f.pdf" =
      [⟨"hello world", "1", "f.pdf"⟩] := by
  have h := c6_single_chunk "hello world" "f.pdf" (by decide) (by decide) (by decide)
  rw [h]
  decide

/-- Total character count of a list of context blocks. -/
def sumLen (l : List (List Char)) : Nat := (l.map List.length).sum

/-- The accumulation loop never lets the running total pass 12000. -/
lemma buildPartsAux_sum (cs : List Chunk) (i total : Nat) (h : total ≤ 12000) :
    total + sumLen (buildPartsAux cs i total) ≤ 12000 := by
  induction cs generalizing i total with
  | nil => simpa [buildPartsAux, sumLen]
  | cons c cs ih =>
    unfold buildPartsAux
    dsimp only
    split
    · simpa [sumLen]
    · rename_i hle
      push_neg at hle
      have hrec := ih (i + 1) (total + (blockFor i c).length) hle
      simp only [sumLen, List.map_cons, List.sum_cons] at hrec ⊢
      omega

/-- The loop emits at most one block per chunk. -/
lemma buildPartsAux_len (cs : List Chunk) (i total : Nat) :
    (buildPartsAux cs i total).length ≤ cs.length := by
  induction cs generalizing i total with
  | nil => simp [buildPartsAux]
  | cons c cs ih =>
    unfold buildPartsAux
    dsimp only
    split
    · simp
    · simpa using Nat.succ_le_succ (ih (i + 1) _)

/-- Joining with newlines adds at most one character per block. -/
lemma joinNl_length : ∀ l : List (List Char), (joinNl l).length ≤ sumLen l + l.length
  | [] => by simp [joinNl, sumLen]
  | [x] => by simp [joinNl, sumLen]
  | x :: y :: ys => by
    have h := joinNl_length (y :: ys)
    simp only [joinNl, sumLen, List.map_cons, List.sum_cons, List.length_cons,
      List.length_append] at h ⊢
    omega

/-- Claim C4: the context injected into the prompt is bounded - the
blocks total at most 12000 characters, at most 6 chunks contribute
regardless of `top_k`, each chunk's text is cut to 1500 characters plus
the 3-character ellipsis before measuring, and the whole prompt length is
bounded by the fixed instruction template plus the question plus the
context budget (12000 characters plus at most 6 joining newlines). -/
theorem c4_context_budget (chunks : List Chunk) (question : String) :
    sumLen (contextParts chunks) ≤ 12000 ∧
    (contextParts chunks).length ≤ 6 ∧
    (∀ t : List Char, (truncText t).length ≤ 1503) ∧
    (buildPrompt question chunks).length ≤
      instructionTemplateLength + question.length + 12006 := by
  have hsum : sumLen (contextParts chunks) ≤ 12000 := by
    simpa [contextParts] using buildPartsAux_sum (chunks.take 6) 1 0 (by omega)
  have hlen : (contextParts chunks).length ≤ 6 := by
    calc (contextParts chunks).length ≤ (chunks.take 6).length :=
          buildPartsAux_len (chunks.take 6) 1 0
      _ ≤ 6 := by simp [List.length_take]
  refine ⟨hsum, hlen, ?_, ?_⟩
  · intro t
    unfold truncText
    split
    · simp only [List.length_append, List.length_take]
      have : ("...".toList).length = 3 := rfl
      omega
    · rename_i h
      omega
  · have hctx : (contextText chunks).length ≤ 12006 := by
      have hj := joinNl_length (contextParts chunks)
      unfold contextText
      omega
    have hq : question.toList.length = question.length := rfl
    unfold buildPrompt instructionTemplateLength
    simp only [List.length_append]
    omega

/-- Membership in an insertion is membership in the parts. -/
lemma mem_insertDesc {z x : Nat × Chunk} :
    ∀ {l : List (Nat × Chunk)}, z ∈ insertDesc x l ↔ z = x ∨ z ∈ l
  | [] => by simp [insertDesc]
  | y :: ys => by
    unfold insertDesc
    split
    · simp [List.mem_cons]
    · rw [List.mem_cons, mem_insertDesc (l := ys), List.mem_cons]
      tauto

/-- The sorted list has exactly the input's elements. -/
lemma mem_sortDesc {z : Nat × Chunk} :
    ∀ {l : List (Nat × Chunk)}, z ∈ sortDesc l ↔ z ∈ l
  | [] => Iff.rfl
  | x :: xs => by
    unfold sortDesc
    rw [mem_insertDesc, mem_sortDesc (l := xs), List.mem_cons]

/-- Inserting into a list sorted descending by score keeps it sorted. -/
lemma insertDesc_sorted (x : Nat × Chunk) :
    ∀ (l : List (Nat × Chunk)), l.Sorted (fun a b => b.1 ≤ a.1) →
      (insertDesc x l).Sorted (fun a b => b.1 ≤ a.1)
  | [], _ => by simp [insertDesc]
  | y :: ys, h => by
    rw [List.sorted_cons] at h
    obtain ⟨hy, hys⟩ := h
    unfold insertDesc
    split
    · rename_i hle
      rw [List.sorted_cons]
      refine ⟨?_, by rw [List.sorted_cons]; exact ⟨hy, hys⟩⟩
      intro z hz
      rcases List.mem_cons.mp hz with rfl | hz
      · exact hle
      · exact le_trans (hy z hz) hle
    · rename_i hgt
      rw [List.sorted_cons]
      constructor
      · intro z hz
        rcases mem_insertDesc.mp hz with rfl | hz
        · omega
        · exact hy z hz
      · exact insertDesc_sorted x ys hys

/-- The model sort is sorted descending by score. -/
lemma sortDesc_sortedDesc :
    ∀ l : List (Nat × Chunk), (sortDesc l).Sorted (fun a b => b.1 ≤ a.1)
  | [] => List.sorted_nil
  | x :: xs => insertDesc_sorted x (sortDesc xs) (sortDesc_sortedDesc xs)

/-- Stability of the insertion step: the equal-score subsequence is
preserved, with the inserted element placed after the existing elements
of its score class exactly when the list is scanned in input order. -/
lemma filter_insertDesc (x : Nat × Chunk) (s : Nat) :
    ∀ l : List (Nat × Chunk),
      (insertDesc x l).filter (fun p => p.1 == s) =
        if x.1 = s then x :: l.filter (fun p => p.1 == s)
        else l.filter (fun p => p.1 == s)
  | [] => by
    by_cases hx : x.1 = s <;> simp [insertDesc, List.filter_cons, hx]
  | y :: ys => by
    unfold insertDesc
    split
    · rename_i hle
      by_cases hx : x.1 = s <;> simp [List.filter_cons, hx]
    · rename_i hgt
      by_cases hx : x.1 = s
      · have hy : ¬ y.1 = s := by omega
        simp [List.filter_cons, hx, hy, filter_insertDesc x s ys]
      · by_cases hy : y.1 = s <;>
          simp [List.filter_cons, hx, hy, filter_insertDesc x s ys]

/-- Stability of the model sort: for every score value, the subsequence
of elements carrying that score is exactly the input's subsequence, in
input order. -/
lemma filter_sortDesc (s : Nat) :
    ∀ l : List (Nat × Chunk),
      (sortDesc l).filter (fun p => p.1 == s) = l.filter (fun p => p.1 == s)
  | [] => rfl
  | x :: xs => by
    unfold sortDesc
    rw [filter_insertDesc]
    by_cases hx : x.1 = s <;> simp [List.filter_cons, hx, filter_sortDesc s xs]

/-- Claim C5: the descending sort of the scorer is stable - for every
score value `s`, the scored chunks carrying `s` appear in the sorted
ranking in exactly their input order (their subsequences coincide), and
the scorer's output is the score-erased prefix of that stable ranking, so
any two equal-scored chunks that both reach the output keep their
relative input order. -/
theorem c5_stable_ranking (query : String) (chunks : List Chunk) (s top_k : Nat) :
    (sortDesc (scoredList query chunks)).filter (fun p => p.1 == s) =
      (scoredList query chunks).filter (fun p => p.1 == s) ∧
    simple_keyword_search query chunks top_k =
      ((sortDesc (scoredList query chunks)).take top_k).map Prod.snd :=
  ⟨filter_sortDesc s (scoredList query chunks), rfl⟩

/-- Claim C7: the score is exactly the word-set intersection size plus a
bonus of 10 when the lower-cased query occurs verbatim in the lower-cased
text; when the query's word set is contained in the chunk's, the overlap
is the full query word count and the score at least that count; a phrase
match guarantees overlap plus 10; and every chunk the scorer returns has
a strictly positive score (zero-scoring chunks are excluded). -/
theorem c7_scoring (query : String) :
    (∀ c : Chunk, chunkScore query c =
        overlapCount query c + (if hasPhrase query c then 10 else 0)) ∧
    (∀ c : Chunk,
      (∀ w ∈ wordsOf (pyLower query.toList),
          (wordsOf (pyLower c.text.toList)).contains w) →
        overlapCount query c = (wordsOf (pyLower query.toList)).length ∧
        (wordsOf (pyLower query.toList)).length ≤ chunkScore query c) ∧
    (∀ c : Chunk, hasPhrase query c = true →
        overlapCount query c + 10 ≤ chunkScore query c) ∧
    (∀ (chunks : List Chunk) (top_k : Nat) (c : Chunk),
        c ∈ simple_keyword_search query chunks top_k → 0 < chunkScore query c) := by
  have hscore : ∀ c : Chunk, chunkScore query c =
      overlapCount query c + (if hasPhrase query c then 10 else 0) := by
    intro c
    unfold chunkScore
    split <;> simp_all
  refine ⟨hscore, ?_, ?_, ?_⟩
  · intro c hsub
    have hfull : (wordsOf (pyLower query.toList)).filter
        (fun w => (wordsOf (pyLower c.text.toList)).contains w) =
        wordsOf (pyLower query.toList) :=
      List.filter_eq_self.mpr hsub
    have hov : overlapCount query c = (wordsOf (pyLower query.toList)).length := by
      unfold overlapCount
      rw [hfull]
    exact ⟨hov, by rw [hscore c, hov]; omega⟩
  · intro c hph
    rw [hscore c, hph]
    simp
  · intro chunks top_k c hc
    unfold simple_keyword_search at hc
    rcases List.mem_map.mp hc with ⟨p, hp, hpc⟩
    have hmem : p ∈ scoredList query chunks :=
      mem_sortDesc.mp (List.mem_of_mem_take hp)
    unfold scoredList at hmem
    rcases List.mem_filterMap.mp hmem with ⟨c', _, hc'⟩
    dsimp only at hc'
    split at hc'
    · rename_i hpos
      injection hc' with hc'
      rw [← hpc, ← hc']
      exact hpos
    · exact Option.noConfusion hc'

/-- Witness for C7 at a concrete query and chunk pool. -/
theorem c7_scoring_witness :
    0 < chunkScore "hello" ⟨"hello world", "1", "f"⟩ ∧
    overlapCount "hello" ⟨"hello world", "1", "f"⟩ + 10 ≤
      chunkScore "hello" ⟨"hello world", "1", "f"⟩ ∧
    overlapCount "hello" ⟨"hello world", "1", "f"⟩ =
      (wordsOf (pyLower ("hello" : String).toList)).length :=
  ⟨(c7_scoring "hello").2.2.2 [⟨"hello world", "1", "f"⟩] 5 _ (by decide),
   (c7_scoring "hello").2.2.1 _ (by decide),
   ((c7_scoring "hello").2.1 _ (by decide)).1⟩

/-- A positive prefix of a non-empty list is non-empty. -/
lemma take_ne_nil_of_pos {α : Type} {l : List α} {k : Nat}
    (hl : l ≠ []) (hk : 0 < k) : l.take k ≠ [] := by
  cases l with
  | nil => exact absurd rfl hl
  | cons a as =>
    cases k with
    | zero => omega
    | succ n => simp

/-- Claim C8: when the pool is non-empty but every chunk scores 0, the
Context Assembler returns the first `top_k` pool chunks in original
order, and (for positive `top_k`) never an empty sequence. -/
theorem c8_zero_score_fallback (query : String) (pdfs : List Pdf) (top_k : Nat)
    (hne : derivedPool pdfs ≠ [])
    (hzero : ∀ c ∈ derivedPool pdfs, chunkScore query c = 0) :
    retrieve_from_pdf_texts query pdfs top_k = (derivedPool pdfs).take top_k ∧
    (0 < top_k → retrieve_from_pdf_texts query pdfs top_k ≠ []) := by
  have hscored : scoredList query (derivedPool pdfs) = [] := by
    unfold scoredList
    rw [List.filterMap_eq_nil_iff]
    intro c hc
    simp [hzero c hc]
  have hsks : simple_keyword_search query (derivedPool pdfs) top_k = [] := by
    unfold simple_keyword_search
    rw [hscored]
    simp [sortDesc]
  have hmain : retrieve_from_pdf_texts query pdfs top_k = (derivedPool pdfs).take top_k := by
    unfold retrieve_from_pdf_texts
    rw [if_neg hne]
    dsimp only
    rw [hsks]
    rfl
  exact ⟨hmain, fun hk => hmain ▸ take_ne_nil_of_pos hne hk⟩

/-- Witness for C8: a one-chunk pool with no lexical overlap with the
query falls back to the pool's first chunks. -/
theorem c8_zero_score_fallback_witness :
    retrieve_from_pdf_texts "zzz" [⟨"f", "hello world", "s"⟩] 6 =
      (derivedPool [⟨"f", "hello world", "s"⟩]).take 6 ∧
    retrieve_from_pdf_texts "zzz" [⟨"f", "hello world", "s"⟩] 6 ≠ [] := by
  have h := c8_zero_score_fallback "zzz" [⟨"f", "hello world", "s"⟩] 6
    (by decide) (by decide)
  exact ⟨h.1, h.2 (by decide)⟩

/-- Claim C9: an empty derived chunk pool yields exactly the one
synthetic placeholder chunk, with page `"0"` and source `"System"`. -/
theorem c9_empty_pool_placeholder (query : String) (pdfs : List Pdf) (top_k : Nat)
    (h : derivedPool pdfs = []) :
    retrieve_from_pdf_texts query pdfs top_k = [placeholderChunk] ∧
    placeholderChunk.page = "0" ∧ placeholderChunk.source = "System" := by
  refine ⟨?_, rfl, rfl⟩
  unfold retrieve_from_pdf_texts
  rw [if_pos h]

/-- Witness for C9 at the empty document set. -/
theorem c9_empty_pool_placeholder_witness :
    retrieve_from_pdf_texts "any question" [] 6 = [placeholderChunk] :=
  (c9_empty_pool_placeholder "any question" [] 6 (by decide)).1

/-- The empty pattern is a substring of everything (Python `"" in s`). -/
lemma listHasSub_nil : ∀ l : List Char, listHasSub [] l = true
  | [] => rfl
  | _ :: _ => by simp [listHasSub, listStarts]

/-- With the empty query every chunk scores exactly 10: the query word
set is empty (overlap 0) and the empty string matches as a phrase
everywhere (bonus 10). -/
lemma chunkScore_empty_query (c : Chunk) : chunkScore "" c = 10 := by
  unfold chunkScore overlapCount hasPhrase
  have h1 : wordsOf (pyLower ("" : String).toList) = [] := rfl
  have h2 : listHasSub (pyLower ("" : String).toList) (pyLower c.text.toList) = true :=
    listHasSub_nil _
  rw [h1, h2]
  simp

/-- With the empty query the scored list keeps every chunk, in order,
each with score 10. -/
lemma scoredList_empty_query (chunks : List Chunk) :
    scoredList "" chunks = chunks.map (fun c => (10, c)) := by
  unfold scoredList
  have hf : (fun c : Chunk =>
      let s := chunkScore "" c
      if 0 < s then some (s, c) else none) = fun c => some ((10 : Nat), c) := by
    funext c
    simp [chunkScore_empty_query]
  rw [hf]
  have hmap : ∀ l : List Chunk,
      List.filterMap (fun c => some ((10 : Nat), c)) l =
        l.map (fun c => ((10 : Nat), c)) := by
    intro l
    induction l with
    | nil => rfl
    | cons a as ih => simp [List.filterMap_cons, ih]
  exact hmap chunks

/-- Sorting a constant-score list changes nothing. -/
lemma sortDesc_const_score (n : Nat) :
    ∀ l : List (Nat × Chunk), (∀ p ∈ l, p.1 = n) → sortDesc l = l
  | [], _ => rfl
  | x :: xs, h => by
    unfold sortDesc
    rw [sortDesc_const_score n xs (fun p hp => h p (List.mem_cons_of_mem _ hp))]
    cases xs with
    | nil => rfl
    | cons y ys =>
      unfold insertDesc
      rw [if_pos]
      have hx := h x (List.mem_cons_self x _)
      have hy := h y (List.mem_cons_of_mem _ (List.mem_cons_self y _))
      omega

/-- Claim C10: with the empty query every chunk scores exactly 10, the
scorer returns the first `top_k` chunks in original order, and (for a
non-empty pool and positive `top_k`) the result is non-empty, so the
zero-score fallback path of the assembler is never triggered. -/
theorem c10_empty_query (chunks : List Chunk) (top_k : Nat) :
    (∀ c ∈ chunks, chunkScore "" c = 10) ∧
    simple_keyword_search "" chunks top_k = chunks.take top_k ∧
    (chunks ≠ [] → 0 < top_k → simple_keyword_search "" chunks top_k ≠ []) := by
  have hmain : simple_keyword_search "" chunks top_k = chunks.take top_k := by
    unfold simple_keyword_search
    rw [scoredList_empty_query,
      sortDesc_const_score 10 (chunks.map (fun c => (10, c))) (by simp),
      ← List.map_take]
    simp
  refine ⟨fun c _ => chunkScore_empty_query c, hmain, ?_⟩
  intro hne hk
  rw [hmain]
  exact take_ne_nil_of_pos hne hk

/-- Witness for C10 at a concrete one-chunk pool. -/
theorem c10_empty_query_witness :
    chunkScore "" ⟨"some text", "1", "f"⟩ = 10 ∧
    simple_keyword_search "" [⟨"some text", "1", "f"⟩] 6 ≠ [] :=
  ⟨(c10_empty_query [⟨"some text", "1", "f"⟩] 6).1 _ (by decide),
   (c10_empty_query [⟨"some text", "1", "f"⟩] 6).2.2 (by decide) (by decide)⟩

/-- Claim C2 is false on the code as stated: with a generation oracle
that fails on every call, the pipeline does return the literal fallback
answer text, but the citations block is not empty - `chat_message` still
calls the citation post-processor, which always emits the related-papers
section. -/
theorem c2_failure_counterexample :
    (chat_message (fun _ => Except.error "boom")
        [⟨"a.pdf", "x y z", "a summary"⟩] "q").1 = fallbackAnswer ∧
    (chat_message (fun _ => Except.error "boom")
        [⟨"a.pdf", "x y z", "a summary"⟩] "q").2 ≠ "" := by
  refine ⟨by decide, by decide⟩

/-- Claim C2 (amended): when every generation call fails and the user has
at least one PDF, the chat pipeline returns the literal fixed fallback
answer text together with a NON-empty citations block (the related-papers
section heading is always emitted); no unhandled fault reaches the caller
- the modelled pipeline is a total function and every callee catches its
model exception internally. -/
theorem c2_generation_failure (invoke : String → Except String String)
    (pdfs : List Pdf) (message : String)
    (hfail : ∀ p, ∃ e, invoke p = Except.error e)
    (hpdfs : pdfs ≠ []) :
    (chat_message invoke pdfs message).1 = fallbackAnswer ∧
    (chat_message invoke pdfs message).2 ≠ "" := by
  unfold chat_message
  rw [if_neg hpdfs]
  dsimp only
  constructor
  · unfold answer_with_context
    dsimp only
    obtain ⟨e, he⟩ :=
      hfail ((buildPrompt message (retrieve_from_pdf_texts message pdfs 6)).asString)
    rw [he]
  · unfold search_papers_from_pdf
    dsimp only
    intro hcontra
    have hlen := congrArg String.length hcontra
    simp only [String.length_append] at hlen
    have hpos : 0 < relatedHeading.length := by decide
    have h0 : ("" : String).length = 0 := rfl
    omega

/-- Witness for the amended C2 at a concrete failing oracle. -/
theorem c2_generation_failure_witness :
    (chat_message (fun _ => Except.error "quota")
        [⟨"b.pdf", "text here", "sum"⟩] "hi").1 = fallbackAnswer ∧
    (chat_message (fun _ => Except.error "quota")
        [⟨"b.pdf", "text here", "sum"⟩] "hi").2 ≠ "" :=
  c2_generation_failure _ _ _ (fun _ => ⟨"quota", rfl⟩) (by decide)
